import Mathlib

/-!
Shallow embedding of the `AutoRegister` registry from
`src/04_AutoRegister/auto_register.h`.

The registry is a string-keyed directory of creators (`creators_`),
cached instances (`instances_`) and per-priority init queues
(`init_queues_`), guarded by a single non-recursive `std::mutex`.

Modelling decisions, each traceable to the header:

* Client callbacks (creator lambdas, init lambdas) are opaque; we model a
  callback by its observable outcome on its n-th invocation
  (`Nat → CreateOutcome` / `Nat → InitOutcome`), and keep a per-key
  invocation counter in the state so that outcomes line up with calls.
* A stored entry of `creators_` is either the client's raw lambda
  (`registerCreator`, auto_register.h:54) or the wrapper closure built by
  `registerCreatorWithInit` / `registerClass` / `registerClassWithInit`
  (auto_register.h:73-83, 146-153, 166-176): the wrapper invokes the client
  creator, then the optional init on a non-null result, and catches
  exceptions, turning them into a diagnostic plus a null return.
* `shared_ptr` identity is modelled by a fresh natural number drawn from a
  counter (`nextInst`) at each creation that returns a non-null handle.
* Every operation returns, besides its result and the next state, a trace
  of events: mutex acquisitions/releases of `mutex_` (each `lock_guard`
  contributes one acquire and one release), client creator/initializer
  invocations, and `std::cerr` diagnostics (`warn`).  `std::cout` chatter is
  not traced.  The trace lets us state the locking-discipline claims:
  `mutex_` is a non-recursive `std::mutex`, so an acquire while the same
  thread already holds it is undefined behaviour (in practice, deadlock).
-/

namespace AutoReg

/-- Outcome of one invocation of a client creator lambda. -/
inductive CreateOutcome
  | ok
  | retNull
  | throws
deriving DecidableEq, Repr

/-- Outcome of one invocation of a client init lambda. -/
inductive InitOutcome
  | ok
  | throws
deriving DecidableEq, Repr

/-- A closure stored in `creators_`: either the client's raw lambda
(`registerCreator`) or the catching wrapper built by the with-init /
class registration functions, holding the client creator and an optional
client initializer. -/
inductive StoredCreator
  | raw (create : Nat → CreateOutcome)
  | wrapped (create : Nat → CreateOutcome) (ini : Option (Nat → InitOutcome))

/-- Observable events of a registry operation. -/
inductive Ev
  | lockAcquire
  | lockRelease
  | creatorCall (key : String)
  | initCall (key : String)
  | warn (msg : String)
deriving DecidableEq, Repr

/-- Association-list lookup (models `unordered_map::find`). -/
def lookupA {α : Type} : List (String × α) → String → Option α
  | [], _ => none
  | (k', v) :: rest, k => if k' = k then some v else lookupA rest k

/-- Association-list insert-or-assign (models `map[key] = value`). -/
def insertA {α : Type} : List (String × α) → String → α → List (String × α)
  | [], k, v => [(k, v)]
  | (k', v') :: rest, k, v =>
      if k' = k then (k, v) :: rest else (k', v') :: insertA rest k v

/-- Registry state: `creators_`, `instances_`, the flattened
`init_queues_` (pairs of effective priority and captured key, in
registration order; `collectInitsUpToPriority` regroups them by
priority), per-key creator invocation counters, and the fresh-handle
counter. -/
structure Reg where
  creators : List (String × StoredCreator)
  instances : List (String × Nat)
  initQueue : List (Int × String)
  callCounts : List (String × Nat)
  nextInst : Nat

/-- The empty registry (fresh singleton). -/
def emptyReg : Reg := ⟨[], [], [], [], 0⟩

/-- Number of times key `k`'s client creator has been invoked so far. -/
def countOf (s : Reg) (k : String) : Nat := (lookupA s.callCounts k).getD 0

/-- `std::clamp(v, lo, hi)`. -/
def stdClamp (v lo hi : Int) : Int := if v < lo then lo else if hi < v then hi else v

/-- `class_name + "#" + instance_name` (auto_register.h:36-38). -/
def makeFullName (class_name instance_name : String) : String :=
  class_name ++ "#" ++ instance_name

/-- Result of invoking a closure stored in `creators_`: it either returns a
`shared_ptr<void>` (possibly null) or lets an exception escape. -/
inductive InvokeRes
  | ret (inst : Option Nat)
  | threw
deriving DecidableEq, Repr

/-- Invoking the stored closure for `key` for the `n`-th time, with `fresh`
the next instance id.  A `raw` closure is the client lambda itself.  A
`wrapped` closure runs the client creator, then the optional init on a
non-null result, catching `std::exception` into a diagnostic plus a null
return (auto_register.h:73-83, 146-153, 166-176). -/
def invokeStored (key : String) (sc : StoredCreator) (n : Nat) (fresh : Nat) :
    InvokeRes × List Ev :=
  match sc with
  | .raw create =>
    match create n with
    | .ok => (.ret (some fresh), [.creatorCall key])
    | .retNull => (.ret none, [.creatorCall key])
    | .throws => (.threw, [.creatorCall key])
  | .wrapped create ini =>
    match create n with
    | .throws =>
        (.ret none, [.creatorCall key,
          .warn ("AutoRegister ERROR Creator with init failed for " ++ key)])
    | .retNull => (.ret none, [.creatorCall key])
    | .ok =>
      match ini with
      | none => (.ret (some fresh), [.creatorCall key])
      | some f =>
        match f n with
        | .ok => (.ret (some fresh), [.creatorCall key, .initCall key])
        | .throws =>
            (.ret none, [.creatorCall key, .initCall key,
              .warn ("AutoRegister ERROR Creator with init failed for " ++ key)])

/-- `AutoRegister::lazyCreateInstance<T>(class_name)` (auto_register.h:355-383).
Three successive `lock_guard` blocks: (1) return the cached instance if
present; (2) look up the creator and invoke it *while the lock is held*
(auto_register.h:372), catching exceptions into a diagnostic and a null
result; (3) if the returned handle is non-null, cache it under the key.
`lazyCreateInstanceWithInit` (auto_register.h:385-414) has an identical
body, so this definition also models it. -/
def lazyCreateInstance (key : String) (s : Reg) : Option Nat × Reg × List Ev :=
  match lookupA s.instances key with
  | some inst => (some inst, s, [.lockAcquire, .lockRelease])
  | none =>
    match lookupA s.creators key with
    | none =>
        (none, s, [.lockAcquire, .lockRelease, .lockAcquire,
          .warn ("AutoRegister ERROR No creator found for " ++ key), .lockRelease])
    | some sc =>
      let n := countOf s key
      let inv := invokeStored key sc n s.nextInst
      let s1 : Reg := { s with callCounts := insertA s.callCounts key (n + 1) }
      match inv.1 with
      | .threw =>
          (none, s1, [.lockAcquire, .lockRelease, .lockAcquire] ++ inv.2 ++
            [.warn ("AutoRegister ERROR Failed to create instance " ++ key),
             .lockRelease])
      | .ret none =>
          (none, s1, [.lockAcquire, .lockRelease, .lockAcquire] ++ inv.2 ++
            [.lockRelease])
      | .ret (some inst) =>
          (some inst,
           { s1 with instances := insertA s1.instances key inst,
                     nextInst := s1.nextInst + 1 },
           [.lockAcquire, .lockRelease, .lockAcquire] ++ inv.2 ++
             [.lockRelease, .lockAcquire, .lockRelease])

/-- `AutoRegister::getInstance<T>(class_name)` (auto_register.h:251-259).
Takes `mutex_`; on a cache hit returns the cached handle; on a miss calls
`lazyCreateInstance` *with the outer `lock_guard` still held* — its trace
is nested between the outer acquire and release. -/
def getInstance (key : String) (s : Reg) : Option Nat × Reg × List Ev :=
  match lookupA s.instances key with
  | some inst => (some inst, s, [.lockAcquire, .lockRelease])
  | none =>
    let r := lazyCreateInstance key s
    (r.1, r.2.1, [Ev.lockAcquire] ++ r.2.2 ++ [Ev.lockRelease])

/-- `AutoRegister::registerCreator` (auto_register.h:45-60): under the lock,
warn if the key already exists, clamp the priority into `[0,10]`, store the
raw client lambda, and append a `lazyCreateInstance` task for the key to
the priority's init queue. -/
def registerCreator (key : String) (create : Nat → CreateOutcome)
    (priority : Int) (s : Reg) : Reg × List Ev :=
  let warnEvs : List Ev :=
    if (lookupA s.creators key).isSome then
      [.warn ("AutoRegister WARNING Creator already exists for " ++ key)]
    else []
  let p := stdClamp priority 0 10
  ({ s with creators := insertA s.creators key (.raw create),
            initQueue := s.initQueue ++ [(p, key)] },
   [Ev.lockAcquire] ++ warnEvs ++ [Ev.lockRelease])

/-- `AutoRegister::registerCreatorWithInit<T>` (auto_register.h:62-89): like
`registerCreator`, but stores the catching wrapper around the client
creator and initializer. -/
def registerCreatorWithInit (key : String) (create : Nat → CreateOutcome)
    (ini : Nat → InitOutcome) (priority : Int) (s : Reg) : Reg × List Ev :=
  let warnEvs : List Ev :=
    if (lookupA s.creators key).isSome then
      [.warn ("AutoRegister WARNING Creator already exists for " ++ key)]
    else []
  let p := stdClamp priority 0 10
  ({ s with creators := insertA s.creators key (.wrapped create (some ini)),
            initQueue := s.initQueue ++ [(p, key)] },
   [Ev.lockAcquire] ++ warnEvs ++ [Ev.lockRelease])

/-- `AutoRegister::registerClass<T>` (auto_register.h:141-157): if the key
already exists the function *returns at once, silently keeping the prior
entry*; otherwise it stores a wrapper around `make_shared<T>` (no
initializer) and queues the init task. -/
def registerClass (key : String) (create : Nat → CreateOutcome)
    (priority : Int) (s : Reg) : Reg × List Ev :=
  if (lookupA s.creators key).isSome then (s, [Ev.lockAcquire, Ev.lockRelease])
  else
    let p := stdClamp priority 0 10
    ({ s with creators := insertA s.creators key (.wrapped create none),
              initQueue := s.initQueue ++ [(p, key)] },
     [Ev.lockAcquire, Ev.lockRelease])

/-- `AutoRegister::registerClassWithInit<T>` (auto_register.h:159-180): same
keep-first-silently behaviour on an existing key; otherwise stores a
wrapper around `make_shared<T>` plus the optional `init_func`. -/
def registerClassWithInit (key : String) (create : Nat → CreateOutcome)
    (ini : Option (Nat → InitOutcome)) (priority : Int) (s : Reg) : Reg × List Ev :=
  if (lookupA s.creators key).isSome then (s, [Ev.lockAcquire, Ev.lockRelease])
  else
    let p := stdClamp priority 0 10
    ({ s with creators := insertA s.creators key (.wrapped create ini),
              initQueue := s.initQueue ++ [(p, key)] },
     [Ev.lockAcquire, Ev.lockRelease])

/-- `AutoRegister::collectInitsUpToPriority` (auto_register.h:479-489), kept
as priority/key pairs: `for (priority = 0; priority <= max_priority; ++priority)`
append that priority's queue.  On the flattened queue this is: for each
priority `p` in `0..max_priority`, the queue entries with priority `p` in
registration order. -/
def collectPairs (max_priority : Int) (q : List (Int × String)) :
    List (Int × String) :=
  (List.range (max_priority + 1).toNat).flatMap
    (fun p => q.filter (fun e => e.1 = (p : Int)))

/-- The collected task list itself: each queued task captures only the key
and calls `lazyCreateInstance` on it (auto_register.h:55-57, 84-86,
154-156, 177-179). -/
def collectInitsUpToPriority (max_priority : Int) (q : List (Int × String)) :
    List String :=
  (collectPairs max_priority q).map (fun e => e.2)

/-- `AutoRegister::executeAllCollectedInits` (auto_register.h:501-512): run
the collected tasks in order, each inside a try/catch; each task is
`lazyCreateInstance key`, which in this model always returns (the C++
already catches creator exceptions inside `lazyCreateInstance`). -/
def runTasks : List String → Reg → Reg × List Ev
  | [], s => (s, [])
  | k :: rest, s =>
    let r1 := lazyCreateInstance k s
    let r2 := runTasks rest r1.2.1
    (r2.1, r1.2.2 ++ r2.2)

/-- `AutoRegister::executePriorInits` (auto_register.h:232-242): clamp the
argument into `[0,10]`, snapshot the queues up to that priority under the
lock, run the tasks, then take the lock once more to report the instance
count. -/
def executePriorInits (max_priority : Int) (s : Reg) : Reg × List Ev :=
  let mc := stdClamp max_priority 0 10
  let keys := collectInitsUpToPriority mc s.initQueue
  let r := runTasks keys s
  (r.1, [Ev.lockAcquire, Ev.lockRelease] ++ r.2 ++ [Ev.lockAcquire, Ev.lockRelease])

/-- `AutoRegister::executeAllInits` (auto_register.h:228-230). -/
def executeAllInits (s : Reg) : Reg × List Ev := executePriorInits 10 s

/-- `AutoRegister::hasInstance<T>` (auto_register.h:273-277): whether an
instance for the key is cached. -/
def hasInstance (key : String) (s : Reg) : Bool :=
  (lookupA s.instances key).isSome

/-- `AutoRegister::hasNamedInstance<T>` (auto_register.h:279-285). -/
def hasNamedInstance (instance_name class_name : String) (s : Reg) : Bool :=
  (lookupA s.instances (makeFullName class_name instance_name)).isSome

/-- Does a trace contain a `std::cerr` diagnostic? -/
def hasWarn (evs : List Ev) : Bool :=
  evs.any fun e => match e with | .warn _ => true | _ => false

/-- Scanning a trace with current lock depth `d`: is `mutex_` ever acquired
while the same thread already holds it?  For `std::mutex` such an acquire
is undefined behaviour (in practice, self-deadlock). -/
def acquireWhileHeldAux : List Ev → Nat → Bool
  | [], _ => false
  | Ev.lockAcquire :: rest, d => d != 0 || acquireWhileHeldAux rest (d + 1)
  | Ev.lockRelease :: rest, d => acquireWhileHeldAux rest (d - 1)
  | _ :: rest, d => acquireWhileHeldAux rest d

def acquireWhileHeld (evs : List Ev) : Bool := acquireWhileHeldAux evs 0

/-- Is a client creator or initializer invoked at a point where the
registry lock is held? -/
def callbackUnderLockAux : List Ev → Nat → Bool
  | [], _ => false
  | Ev.lockAcquire :: rest, d => callbackUnderLockAux rest (d + 1)
  | Ev.lockRelease :: rest, d => callbackUnderLockAux rest (d - 1)
  | Ev.creatorCall _ :: rest, d => d != 0 || callbackUnderLockAux rest d
  | Ev.initCall _ :: rest, d => d != 0 || callbackUnderLockAux rest d
  | Ev.warn _ :: rest, d => callbackUnderLockAux rest d

def callbackUnderLock (evs : List Ev) : Bool := callbackUnderLockAux evs 0

/-- A stored closure all of whose client callbacks succeed on every
invocation: a raw client lambda that always returns a fresh instance, or a
wrapper whose client creator always succeeds and whose initializer (if
any) never throws. -/
def alwaysSucceeds : StoredCreator → Prop
  | .raw c => ∀ n, c n = .ok
  | .wrapped c ini =>
      (∀ n, c n = .ok) ∧ ∀ f, ini = some f → ∀ n, f n = .ok

/-- Scenario: two entries registered with initializers, `A` at priority 1
and `B` at priority 2, all callbacks succeeding. -/
def stTwoPhase : Reg :=
  (registerCreatorWithInit "B" (fun _ => .ok) (fun _ => .ok) 2
    ((registerCreatorWithInit "A" (fun _ => .ok) (fun _ => .ok) 1 emptyReg).1)).1

/-- Scenario: entry `K` registered via `registerCreatorWithInit` whose
creator succeeds and whose initializer always throws. -/
def stInitThrows : Reg :=
  (registerCreatorWithInit "K" (fun _ => .ok) (fun _ => .throws) 5 emptyReg).1

/-- Scenario: `registerClass` for key `K` (creator succeeds). -/
def stClassOnce : Reg := (registerClass "K" (fun _ => .ok) 5 emptyReg).1

/-- Scenario: entry `K` registered via `registerCreator` with a raw client
lambda that returns a null handle without throwing. -/
def stNullCreator : Reg := (registerCreator "K" (fun _ => .retNull) 5 emptyReg).1

/-- Scenario: entry `A` registered via `registerCreator` at priority 0. -/
def stPrioZero : Reg := (registerCreator "A" (fun _ => .ok) 0 emptyReg).1

/-- Scenario: entry `A` registered via `registerCreator` with an
always-succeeding counting factory (default priority 5). -/
def stLazyA : Reg := (registerCreator "A" (fun _ => .ok) 5 emptyReg).1

/-- Scenario: `stLazyA` after the instance of `A` has been built through
the batch-init path (`lazyCreateInstance` directly, as an init-queue task
or `forceInit` would call it). -/
def stBuiltA : Reg := (lazyCreateInstance "A" stLazyA).2.1

/-- Scenario: entry `A` registered via `registerCreatorWithInit` with
succeeding creator and initializer. -/
def stWithInitA : Reg :=
  (registerCreatorWithInit "A" (fun _ => .ok) (fun _ => .ok) 5 emptyReg).1

/-- Scenario: three entries `G`, `B`, `H` at default priority, where `B`'s
raw creator always throws and `G`, `H` succeed. -/
def stIsolation : Reg :=
  (registerCreator "H" (fun _ => .ok) 5
    ((registerCreator "B" (fun _ => .throws) 5
      ((registerCreator "G" (fun _ => .ok) 5 emptyReg).1)).1)).1

end AutoReg

namespace AutoReg

/-! ### Association-list facts -/

theorem lookupA_insertA {α : Type} (l : List (String × α)) (k k' : String) (v : α) :
    lookupA (insertA l k v) k' = if k = k' then some v else lookupA l k' := by
  induction l with
  | nil => by_cases h : k = k' <;> simp [insertA, lookupA, h]
  | cons hd tl ih =>
    obtain ⟨k0, v0⟩ := hd
    by_cases h0 : k0 = k
    · subst h0
      by_cases h1 : k0 = k' <;> simp [insertA, lookupA, h1]
    · by_cases h1 : k0 = k' <;> by_cases h2 : k = k' <;>
        simp_all [insertA, lookupA]

theorem countP_insertA {α : Type} (l : List (String × α)) (k : String) (v : α)
    (h : l.countP (fun e => decide (e.1 = k)) ≤ 1) :
    (insertA l k v).countP (fun e => decide (e.1 = k)) = 1 := by
  induction l with
  | nil => simp [insertA]
  | cons hd tl ih =>
    obtain ⟨k0, v0⟩ := hd
    rw [List.countP_cons] at h
    by_cases h0 : k0 = k
    · subst h0
      have he : insertA ((k0, v0) :: tl) k0 v = (k0, v) :: tl := by
        simp [insertA]
      rw [he, List.countP_cons]
      simp only [decide_eq_true_eq] at h ⊢
      simp at h ⊢
      exact h
    · have he : insertA ((k0, v0) :: tl) k v = (k0, v0) :: insertA tl k v := by
        simp [insertA, h0]
      rw [he, List.countP_cons]
      simp only [decide_eq_true_eq] at h ⊢
      simp [h0] at h ⊢
      exact ih h

/-! ### Facts about invoking a stored closure -/

theorem invokeStored_creatorCall (key : String) (sc : StoredCreator) (n fresh : Nat) :
    Ev.creatorCall key ∈ (invokeStored key sc n fresh).2 := by
  cases sc with
  | raw c => cases h : c n <;> simp [invokeStored, h]
  | wrapped c ini =>
    cases h : c n with
    | ok =>
      cases ini with
      | none => simp [invokeStored, h]
      | some f => cases h2 : f n <;> simp [invokeStored, h, h2]
    | retNull => simp [invokeStored, h]
    | throws => simp [invokeStored, h]

theorem invokeStored_events (key : String) (sc : StoredCreator) (n fresh : Nat) :
    ∀ e ∈ (invokeStored key sc n fresh).2,
      e = Ev.creatorCall key ∨ e = Ev.initCall key ∨ ∃ msg, e = Ev.warn msg := by
  intro e he
  cases sc with
  | raw c =>
    cases h : c n <;> simp_all [invokeStored, h]
  | wrapped c ini =>
    cases h : c n with
    | ok =>
      cases ini with
      | none => simp_all [invokeStored, h]
      | some f =>
        cases h2 : f n <;> simp_all [invokeStored, h, h2] <;>
          rcases he with rfl | rfl | rfl <;> simp
    | retNull => simp_all [invokeStored, h]
    | throws =>
      simp_all [invokeStored, h]
      rcases he with rfl | rfl <;> simp


/-! ### Structural facts about `lazyCreateInstance` -/

theorem lazy_creators_eq (key : String) (s : Reg) :
    (lazyCreateInstance key s).2.1.creators = s.creators := by
  unfold lazyCreateInstance
  cases h1 : lookupA s.instances key with
  | some v => rfl
  | none =>
    cases h2 : lookupA s.creators key with
    | none => rfl
    | some sc =>
      cases h3 : (invokeStored key sc (countOf s key) s.nextInst).1 with
      | threw => simp [h3]
      | ret o => cases o <;> simp [h3]

theorem lazy_initQueue_eq (key : String) (s : Reg) :
    (lazyCreateInstance key s).2.1.initQueue = s.initQueue := by
  unfold lazyCreateInstance
  cases h1 : lookupA s.instances key with
  | some v => rfl
  | none =>
    cases h2 : lookupA s.creators key with
    | none => rfl
    | some sc =>
      cases h3 : (invokeStored key sc (countOf s key) s.nextInst).1 with
      | threw => simp [h3]
      | ret o => cases o <;> simp [h3]

/-- A cached instance survives any later `lazyCreateInstance` call: the
only write to `instances_` is `instances_[class_name] = instance` on a
key that was not cached. -/
theorem lazy_instances_mono (key k' : String) (s : Reg) (v : Nat)
    (h : lookupA s.instances k' = some v) :
    lookupA (lazyCreateInstance key s).2.1.instances k' = some v := by
  unfold lazyCreateInstance
  cases h1 : lookupA s.instances key with
  | some w => simpa using h
  | none =>
    cases h2 : lookupA s.creators key with
    | none => simpa using h
    | some sc =>
      cases h3 : (invokeStored key sc (countOf s key) s.nextInst).1 with
      | threw => simpa [h3] using h
      | ret o =>
        cases o with
        | none => simpa [h3] using h
        | some inst =>
          simp only [h3]
          rw [lookupA_insertA]
          have hne : key ≠ k' := by
            intro he
            subst he
            rw [h1] at h
            exact Option.noConfusion h
          simp [hne, h]

/-- A key with no cached instance stays uncached across a
`lazyCreateInstance` call for a *different* key. -/
theorem lazy_instances_none_other (key k' : String) (s : Reg)
    (hne : key ≠ k') (h : lookupA s.instances k' = none) :
    lookupA (lazyCreateInstance key s).2.1.instances k' = none := by
  unfold lazyCreateInstance
  cases h1 : lookupA s.instances key with
  | some w => simpa using h
  | none =>
    cases h2 : lookupA s.creators key with
    | none => simpa using h
    | some sc =>
      cases h3 : (invokeStored key sc (countOf s key) s.nextInst).1 with
      | threw => simpa [h3] using h
      | ret o =>
        cases o with
        | none => simpa [h3] using h
        | some inst =>
          simp only [h3]
          rw [lookupA_insertA]
          simp [hne, h]

/-- Any `creatorCall` event in the trace of `lazyCreateInstance key` is
for `key` itself: each queued task and each lookup only ever invokes the
closure stored under its own key. -/
theorem lazy_event_creator (key k' : String) (s : Reg)
    (h : Ev.creatorCall k' ∈ (lazyCreateInstance key s).2.2) : k' = key := by
  unfold lazyCreateInstance at h
  cases h1 : lookupA s.instances key with
  | some v => rw [h1] at h; simp at h
  | none =>
    rw [h1] at h
    cases h2 : lookupA s.creators key with
    | none => rw [h2] at h; simp at h
    | some sc =>
      rw [h2] at h
      have hinv := invokeStored_events key sc (countOf s key) s.nextInst
      cases h3 : (invokeStored key sc (countOf s key) s.nextInst).1 with
      | threw =>
        simp [h3] at h
        rcases hinv _ h with h' | h' | ⟨msg, h'⟩ <;> simp_all
      | ret o =>
        cases o with
        | none =>
          simp [h3] at h
          rcases hinv _ h with h' | h' | ⟨msg, h'⟩ <;> simp_all
        | some inst =>
          simp [h3] at h
          rcases hinv _ h with h' | h' | ⟨msg, h'⟩ <;> simp_all

/-- Likewise for `initCall` events. -/
theorem lazy_event_init (key k' : String) (s : Reg)
    (h : Ev.initCall k' ∈ (lazyCreateInstance key s).2.2) : k' = key := by
  unfold lazyCreateInstance at h
  cases h1 : lookupA s.instances key with
  | some v => rw [h1] at h; simp at h
  | none =>
    rw [h1] at h
    cases h2 : lookupA s.creators key with
    | none => rw [h2] at h; simp at h
    | some sc =>
      rw [h2] at h
      have hinv := invokeStored_events key sc (countOf s key) s.nextInst
      cases h3 : (invokeStored key sc (countOf s key) s.nextInst).1 with
      | threw =>
        simp [h3] at h
        rcases hinv _ h with h' | h' | ⟨msg, h'⟩ <;> simp_all
      | ret o =>
        cases o with
        | none =>
          simp [h3] at h
          rcases hinv _ h with h' | h' | ⟨msg, h'⟩ <;> simp_all
        | some inst =>
          simp [h3] at h
          rcases hinv _ h with h' | h' | ⟨msg, h'⟩ <;> simp_all

/-- On an uncreated key whose creator exists, `lazyCreateInstance` always
reaches `instance = it->second()` (auto_register.h:372): the client
creator is invoked, whatever its outcome. -/
theorem lazy_creatorCall_mem (key : String) (sc : StoredCreator) (s : Reg)
    (hinst : lookupA s.instances key = none)
    (hcr : lookupA s.creators key = some sc) :
    Ev.creatorCall key ∈ (lazyCreateInstance key s).2.2 := by
  unfold lazyCreateInstance
  rw [hinst, hcr]
  have hmem := invokeStored_creatorCall key sc (countOf s key) s.nextInst
  cases h3 : (invokeStored key sc (countOf s key) s.nextInst).1 with
  | threw => simp [h3, hmem]
  | ret o => cases o <;> simp [h3, hmem]

/-- If every callback of the stored closure succeeds, `lazyCreateInstance`
leaves the key cached. -/
theorem lazy_success (key : String) (sc : StoredCreator) (s : Reg)
    (hcr : lookupA s.creators key = some sc) (hok : alwaysSucceeds sc) :
    (lookupA (lazyCreateInstance key s).2.1.instances key).isSome = true := by
  unfold lazyCreateInstance
  cases h1 : lookupA s.instances key with
  | some v => simp [h1]
  | none =>
    rw [hcr]
    cases sc with
    | raw c =>
      have hc := hok (countOf s key)
      simp only [invokeStored, hc]
      rw [lookupA_insertA]
      simp
    | wrapped c ini =>
      obtain ⟨hc, hini⟩ := hok
      cases ini with
      | none =>
        simp only [invokeStored, hc (countOf s key)]
        rw [lookupA_insertA]
        simp
      | some f =>
        have hf := hini f rfl (countOf s key)
        simp only [invokeStored, hc (countOf s key), hf]
        rw [lookupA_insertA]
        simp

/-- The cache after `lazyCreateInstance` holds the key exactly when the
call returned a handle or the key was already cached. -/
theorem lazy_cache_eq (key : String) (s : Reg) :
    hasInstance key (lazyCreateInstance key s).2.1
      = (((lazyCreateInstance key s).1).isSome || hasInstance key s) := by
  unfold lazyCreateInstance hasInstance
  cases h1 : lookupA s.instances key with
  | some v => simp [h1]
  | none =>
    cases h2 : lookupA s.creators key with
    | none => simp [h1]
    | some sc =>
      cases h3 : (invokeStored key sc (countOf s key) s.nextInst).1 with
      | threw => simp [h3, h1]
      | ret o =>
        cases o with
        | none => simp [h3, h1]
        | some inst =>
          simp only [h3]
          rw [lookupA_insertA]
          simp



/-! ### Structural facts about `runTasks` / `executeAllCollectedInits` -/

theorem runTasks_append (xs ys : List String) (s : Reg) :
    runTasks (xs ++ ys) s
      = ((runTasks ys (runTasks xs s).1).1,
         (runTasks xs s).2 ++ (runTasks ys (runTasks xs s).1).2) := by
  induction xs generalizing s with
  | nil => simp [runTasks]
  | cons k rest ih => simp [runTasks, ih]

theorem runTasks_creators_eq (keys : List String) (s : Reg) :
    (runTasks keys s).1.creators = s.creators := by
  induction keys generalizing s with
  | nil => rfl
  | cons k rest ih => simp [runTasks, ih, lazy_creators_eq]

theorem runTasks_mono (keys : List String) (s : Reg) (k : String) (v : Nat)
    (h : lookupA s.instances k = some v) :
    lookupA (runTasks keys s).1.instances k = some v := by
  induction keys generalizing s with
  | nil => exact h
  | cons k0 rest ih => exact ih _ (lazy_instances_mono k0 k s v h)

theorem runTasks_event_creator (keys : List String) (s : Reg) (k' : String)
    (h : Ev.creatorCall k' ∈ (runTasks keys s).2) : k' ∈ keys := by
  induction keys generalizing s with
  | nil => simp [runTasks] at h
  | cons k0 rest ih =>
    simp only [runTasks, List.mem_append] at h
    rcases h with h | h
    · exact (lazy_event_creator k0 k' s h) ▸ List.mem_cons_self k0 rest
    · exact List.mem_cons_of_mem k0 (ih _ h)

theorem runTasks_event_init (keys : List String) (s : Reg) (k' : String)
    (h : Ev.initCall k' ∈ (runTasks keys s).2) : k' ∈ keys := by
  induction keys generalizing s with
  | nil => simp [runTasks] at h
  | cons k0 rest ih =>
    simp only [runTasks, List.mem_append] at h
    rcases h with h | h
    · exact (lazy_event_init k0 k' s h) ▸ List.mem_cons_self k0 rest
    · exact List.mem_cons_of_mem k0 (ih _ h)

theorem runTasks_success (keys : List String) (s : Reg) (k : String)
    (hk : k ∈ keys) (sc : StoredCreator)
    (hcr : lookupA s.creators k = some sc) (hok : alwaysSucceeds sc) :
    (lookupA (runTasks keys s).1.instances k).isSome = true := by
  induction keys generalizing s with
  | nil => cases hk
  | cons k0 rest ih =>
    rcases List.mem_cons.mp hk with h | h
    · subst h
      have hs := lazy_success k sc s hcr hok
      obtain ⟨v, hv⟩ := Option.isSome_iff_exists.mp hs
      simp only [runTasks]
      rw [runTasks_mono rest _ k v hv]
      rfl
    · have hcr' : lookupA (lazyCreateInstance k0 s).2.1.creators k = some sc := by
        rw [lazy_creators_eq]; exact hcr
      simpa [runTasks] using ih _ h hcr'

/-- A key whose stored closure is a raw client lambda that always throws
is never cached by any `lazyCreateInstance` call. -/
theorem lazy_fail_none (k j : String) (c : Nat → CreateOutcome) (s : Reg)
    (hcr : lookupA s.creators j = some (.raw c)) (hthrows : ∀ n, c n = .throws)
    (hnone : lookupA s.instances j = none) :
    lookupA (lazyCreateInstance k s).2.1.instances j = none := by
  by_cases hkj : k = j
  · subst hkj
    unfold lazyCreateInstance
    rw [hnone, hcr]
    simp only [invokeStored, hthrows (countOf s k)]
    exact hnone
  · exact lazy_instances_none_other k j s hkj hnone

theorem runTasks_fail_none (keys : List String) (s : Reg) (j : String)
    (c : Nat → CreateOutcome)
    (hcr : lookupA s.creators j = some (.raw c)) (hthrows : ∀ n, c n = .throws)
    (hnone : lookupA s.instances j = none) :
    lookupA (runTasks keys s).1.instances j = none := by
  induction keys generalizing s with
  | nil => exact hnone
  | cons k0 rest ih =>
    have hcr' : lookupA (lazyCreateInstance k0 s).2.1.creators j = some (.raw c) := by
      rw [lazy_creators_eq]; exact hcr
    simpa [runTasks] using
      ih _ hcr' (lazy_fail_none k0 j c s hcr hthrows hnone)

theorem hasWarn_append (xs ys : List Ev) :
    hasWarn (xs ++ ys) = (hasWarn xs || hasWarn ys) := by
  simp [hasWarn, List.any_append]

/-- On an uncreated key whose raw client creator throws, the
`try`/`catch` in `lazyCreateInstance` (auto_register.h:373-376) emits the
"Failed to create instance" diagnostic. -/
theorem lazy_throw_warn (j : String) (c : Nat → CreateOutcome) (s : Reg)
    (hcr : lookupA s.creators j = some (.raw c)) (hthrows : ∀ n, c n = .throws)
    (hnone : lookupA s.instances j = none) :
    hasWarn (lazyCreateInstance j s).2.2 = true := by
  unfold lazyCreateInstance
  rw [hnone, hcr]
  simp only [invokeStored, hthrows (countOf s j)]
  simp [hasWarn]

theorem runTasks_fail_warn (keys : List String) (s : Reg) (j : String)
    (c : Nat → CreateOutcome) (hj : j ∈ keys)
    (hcr : lookupA s.creators j = some (.raw c)) (hthrows : ∀ n, c n = .throws)
    (hnone : lookupA s.instances j = none) :
    hasWarn (runTasks keys s).2 = true := by
  induction keys generalizing s with
  | nil => cases hj
  | cons k0 rest ih =>
    simp only [runTasks, hasWarn_append]
    rcases List.mem_cons.mp hj with h | h
    · subst h
      rw [lazy_throw_warn j c s hcr hthrows hnone]
      rfl
    · have hcr' : lookupA (lazyCreateInstance k0 s).2.1.creators j = some (.raw c) := by
        rw [lazy_creators_eq]; exact hcr
      rw [ih _ h hcr' (lazy_fail_none k0 j c s hcr hthrows hnone)]
      simp


/-! ### Facts about priority clamping and the collection pass -/

theorem stdClamp_nonneg (v : Int) : 0 ≤ stdClamp v 0 10 := by
  unfold stdClamp; split_ifs <;> omega

theorem stdClamp_le_ten (v : Int) : stdClamp v 0 10 ≤ 10 := by
  unfold stdClamp; split_ifs <;> omega

/-- An entry appears in the collected snapshot iff it is in the queue with
priority between `0` and `max_priority`: the loop in
`collectInitsUpToPriority` walks priorities `0..max_priority`. -/
theorem mem_collectPairs (mc : Int) (q : List (Int × String)) (e : Int × String) :
    e ∈ collectPairs mc q ↔ e ∈ q ∧ 0 ≤ e.1 ∧ e.1 ≤ mc := by
  unfold collectPairs
  simp only [List.mem_flatMap, List.mem_range, List.mem_filter, decide_eq_true_eq]
  constructor
  · rintro ⟨p, hp, he, hpe⟩
    exact ⟨he, by omega, by omega⟩
  · rintro ⟨he, h0, hle⟩
    exact ⟨e.1.toNat, by omega, he, by omega⟩

/-- The collected snapshot is ordered by ascending priority. -/
theorem collectPairs_sorted (mc : Int) (q : List (Int × String)) :
    (collectPairs mc q).Pairwise (fun a b => a.1 ≤ b.1) := by
  unfold collectPairs
  rw [List.flatMap_def, List.pairwise_flatten]
  constructor
  · intro l hl
    rw [List.mem_map] at hl
    obtain ⟨p, _, rfl⟩ := hl
    refine List.pairwise_of_forall_mem_list ?_
    intro a ha b hb
    rw [List.mem_filter] at ha hb
    have ha2 := of_decide_eq_true ha.2
    have hb2 := of_decide_eq_true hb.2
    omega
  · rw [List.pairwise_map]
    refine (List.pairwise_lt_range _).imp ?_
    intro p1 p2 hlt a ha b hb
    rw [List.mem_filter] at ha hb
    have ha2 := of_decide_eq_true ha.2
    have hb2 := of_decide_eq_true hb.2
    omega

/-- Filtering the flatMap of per-priority blocks at one priority gives
back that priority's queue, in registration order, when the priority is
inside the scanned range, and nothing otherwise. -/
theorem filter_flatMap_range (n p : Nat) (q : List (Int × String)) :
    ((List.range n).flatMap
        (fun pr => q.filter (fun e => e.1 = (pr : Int)))).filter
        (fun e => e.1 = (p : Int))
      = if p < n then q.filter (fun e => e.1 = (p : Int)) else [] := by
  induction n with
  | zero => simp
  | succ n ih =>
    rw [List.range_succ, List.flatMap_append, List.filter_append, ih]
    have hblock :
        (q.filter (fun e => decide (e.1 = (n : Int)))).filter
            (fun e => decide (e.1 = (p : Int)))
          = if p = n then q.filter (fun e => decide (e.1 = (p : Int))) else [] := by
      rw [List.filter_filter]
      by_cases hpn : p = n
      · subst hpn
        simp
      · rw [if_neg hpn, List.filter_eq_nil_iff]
        intro a _ hcontra
        simp only [Bool.and_eq_true, decide_eq_true_eq] at hcontra
        omega
    simp only [List.flatMap_cons, List.flatMap_nil, List.append_nil] at *
    rw [hblock]
    by_cases h1 : p < n
    · have h2 : p ≠ n := by omega
      simp [h1, h2, if_pos (by omega : p < n + 1)]
    · by_cases h2 : p = n
      · subst h2
        simp [h1]
      · have h3 : ¬ p < n + 1 := by omega
        simp [h1, h2, h3]


/-- Stability: within one priority, the collected snapshot preserves the
queue's registration order exactly. -/
theorem filter_collectPairs (mc p : Int) (q : List (Int × String))
    (h0 : 0 ≤ p) (hle : p ≤ mc) :
    (collectPairs mc q).filter (fun e => e.1 = p)
      = q.filter (fun e => e.1 = p) := by
  unfold collectPairs
  have hp : p = ((p.toNat : Nat) : Int) := by omega
  rw [hp, filter_flatMap_range]
  rw [if_pos (by omega : p.toNat < (mc + 1).toNat)]

/-- If every occurrence of `a` lies in the first part of a concatenation
and every occurrence of `b` in the second, then every index of `a`
precedes every index of `b`. -/
theorem mem_split_lt {α : Type} (xs ys : List α) (a b : α)
    (ha : a ∉ ys) (hb : b ∉ xs) (i j : Nat)
    (hia : (xs ++ ys)[i]? = some a) (hjb : (xs ++ ys)[j]? = some b) : i < j := by
  have hi : i < xs.length := by
    by_contra hcon
    push_neg at hcon
    rw [List.getElem?_append_right hcon] at hia
    exact ha (List.getElem?_mem hia)
  have hj : xs.length ≤ j := by
    by_contra hcon
    push_neg at hcon
    rw [List.getElem?_append_left hcon] at hjb
    exact hb (List.getElem?_mem hjb)
  omega

theorem collectInits_eq_flatMap (mc : Int) (q : List (Int × String)) :
    collectInitsUpToPriority mc q
      = (List.range (mc + 1).toNat).flatMap
          (fun p => (q.filter (fun e => e.1 = (p : Int))).map (fun e => e.2)) := by
  unfold collectInitsUpToPriority collectPairs
  rw [List.map_flatMap]

theorem mem_collect_block (q : List (Int × String)) (p : Nat) (k : String)
    (h : k ∈ (q.filter (fun e => e.1 = (p : Int))).map (fun e => e.2)) :
    ∃ pr, (pr, k) ∈ q ∧ pr = (p : Int) := by
  rw [List.mem_map] at h
  obtain ⟨e, he, rfl⟩ := h
  rw [List.mem_filter] at he
  exact ⟨e.1, he.1, of_decide_eq_true he.2⟩


/-! ### Claim theorems -/

/-- C8: for every integer priority `p`, `registerCreator` stores the
effective priority `std::clamp(p, 0, 10)` with the queued task — an
effective priority of `0` for `-5` and `10` for `99` — and on a fresh key
emits no diagnostic (clamping is silent). -/
theorem C8_priority_clamped (p : Int) (key : String) (create : Nat → CreateOutcome)
    (s : Reg) (h : lookupA s.creators key = none) :
    (registerCreator key create p s).1.initQueue
        = s.initQueue ++ [(stdClamp p 0 10, key)]
    ∧ 0 ≤ stdClamp p 0 10 ∧ stdClamp p 0 10 ≤ 10
    ∧ hasWarn (registerCreator key create p s).2 = false
    ∧ stdClamp (-5) 0 10 = 0 ∧ stdClamp 99 0 10 = 10 := by
  refine ⟨rfl, stdClamp_nonneg p, stdClamp_le_ten p, ?_, by decide, by decide⟩
  simp [registerCreator, h, hasWarn]

/-- Witness for C8 at priority `-5`, key `A`, the empty registry. -/
theorem C8_priority_clamped_witness :
    (registerCreator "A" (fun _ => CreateOutcome.ok) (-5) emptyReg).1.initQueue
        = emptyReg.initQueue ++ [(stdClamp (-5) 0 10, "A")]
    ∧ 0 ≤ stdClamp (-5) 0 10 ∧ stdClamp (-5) 0 10 ≤ 10
    ∧ hasWarn (registerCreator "A" (fun _ => CreateOutcome.ok) (-5) emptyReg).2 = false
    ∧ stdClamp (-5) 0 10 = 0 ∧ stdClamp 99 0 10 = 10 :=
  C8_priority_clamped (-5) "A" (fun _ => CreateOutcome.ok) emptyReg rfl

/-- C10: `hasInstance` answers exactly "is an instance cached under this
key": it is equivalent to membership in `instances_`; `hasNamedInstance`
is `hasInstance` of the composed full name; registering a creator does
not change it (so it is `false` for a registered-but-never-created key);
and after a lookup it is raised exactly when the lookup produced a
handle. -/
theorem C10_hasInstance_iff (key nm cl : String) (cr : Nat → CreateOutcome)
    (p : Int) (s : Reg) :
    (hasInstance key s = true ↔ ∃ v, lookupA s.instances key = some v)
    ∧ hasNamedInstance nm cl s = hasInstance (makeFullName cl nm) s
    ∧ hasInstance key ((registerCreator key cr p s).1) = hasInstance key s
    ∧ hasInstance key (lazyCreateInstance key s).2.1
        = (((lazyCreateInstance key s).1).isSome || hasInstance key s) := by
  refine ⟨?_, rfl, rfl, lazy_cache_eq key s⟩
  simp [hasInstance, Option.isSome_iff_exists]

/-- C3 counterexample: re-registering key `K` through `registerClass`
(auto_register.h:144 `if (creators_.count(class_name)) return;`) emits no
warning, keeps the first creator, and a subsequent `getInstance` invokes
the *first* creator (which succeeds and yields instance `0`; the second
would have returned null). -/
theorem C3_counterexample :
    hasWarn (registerClass "K" (fun _ => CreateOutcome.retNull) 5 stClassOnce).2 = false
    ∧ (registerClass "K" (fun _ => CreateOutcome.retNull) 5 stClassOnce).1.creators
        = stClassOnce.creators
    ∧ (getInstance "K"
        (registerClass "K" (fun _ => CreateOutcome.retNull) 5 stClassOnce).1).1
        = some 0 :=
  ⟨rfl, rfl, rfl⟩

/-- C3 corrected: the lambda registrars (`registerCreator` etc.) warn and
replace — exactly one `creators_` entry remains and a subsequent lookup
runs the later creator — while the class registrars (`registerClass`,
`registerClassWithInit`) return early on an existing key, silently keeping
the first entry. -/
theorem C3_overwrite_semantics (key : String) (cNew : Nat → CreateOutcome)
    (old : StoredCreator) (p : Int) (s : Reg)
    (hold : lookupA s.creators key = some old)
    (hinst : lookupA s.instances key = none)
    (huniq : s.creators.countP (fun e => decide (e.1 = key)) ≤ 1) :
    hasWarn (registerCreator key cNew p s).2 = true
    ∧ lookupA (registerCreator key cNew p s).1.creators key
        = some (StoredCreator.raw cNew)
    ∧ (registerCreator key cNew p s).1.creators.countP
        (fun e => decide (e.1 = key)) = 1
    ∧ (lazyCreateInstance key (registerCreator key cNew p s).1).1
        = (if cNew (countOf s key) = CreateOutcome.ok then some s.nextInst else none)
    ∧ (registerClass key cNew p s).1 = s
    ∧ hasWarn (registerClass key cNew p s).2 = false
    ∧ (registerClassWithInit key cNew none p s).1 = s := by
  have hwarm : (lookupA s.creators key).isSome = true := by
    rw [hold]; rfl
  have hlook : lookupA (registerCreator key cNew p s).1.creators key
      = some (StoredCreator.raw cNew) := by
    show lookupA (insertA s.creators key (StoredCreator.raw cNew)) key = _
    rw [lookupA_insertA]
    simp
  refine ⟨?_, hlook, ?_, ?_, ?_, ?_, ?_⟩
  · simp [registerCreator, hwarm, hasWarn]
  · exact countP_insertA s.creators key (StoredCreator.raw cNew) huniq
  · have hi : (registerCreator key cNew p s).1.instances = s.instances := rfl
    have hcc : (registerCreator key cNew p s).1.callCounts = s.callCounts := rfl
    have hni : (registerCreator key cNew p s).1.nextInst = s.nextInst := rfl
    unfold lazyCreateInstance
    rw [hi, hinst, hlook, hcc, hni]
    show (match (invokeStored key (StoredCreator.raw cNew) (countOf s key) s.nextInst).1 with
      | InvokeRes.threw => _
      | InvokeRes.ret none => _
      | InvokeRes.ret (some inst) => _ : Option Nat × Reg × List Ev).1 = _
    cases hc : cNew (countOf s key) <;> simp [invokeStored, hc]
  · simp [registerClass, hwarm]
  · simp [registerClass, hwarm, hasWarn]
  · simp [registerClassWithInit, hwarm]

/-- Witness for C3's corrected statement: key `K` registered once via
`registerClass`, then re-registered. -/
theorem C3_overwrite_semantics_witness :
    hasWarn (registerCreator "K" (fun _ => CreateOutcome.retNull) 5 stClassOnce).2 = true
    ∧ lookupA (registerCreator "K" (fun _ => CreateOutcome.retNull) 5 stClassOnce).1.creators "K"
        = some (StoredCreator.raw (fun _ => CreateOutcome.retNull))
    ∧ (registerCreator "K" (fun _ => CreateOutcome.retNull) 5 stClassOnce).1.creators.countP
        (fun e => decide (e.1 = "K")) = 1
    ∧ (lazyCreateInstance "K"
        (registerCreator "K" (fun _ => CreateOutcome.retNull) 5 stClassOnce).1).1
        = (if (fun (_ : Nat) => CreateOutcome.retNull) (countOf stClassOnce "K")
              = CreateOutcome.ok
           then some stClassOnce.nextInst else none)
    ∧ (registerClass "K" (fun _ => CreateOutcome.retNull) 5 stClassOnce).1 = stClassOnce
    ∧ hasWarn (registerClass "K" (fun _ => CreateOutcome.retNull) 5 stClassOnce).2 = false
    ∧ (registerClassWithInit "K" (fun _ => CreateOutcome.retNull) none 5 stClassOnce).1
        = stClassOnce :=
  C3_overwrite_semantics "K" (fun _ => CreateOutcome.retNull)
    (StoredCreator.wrapped (fun _ => CreateOutcome.ok) none) 5 stClassOnce
    rfl rfl (by rw [show stClassOnce.creators.countP (fun e => decide (e.1 = "K")) = 1 from rfl])


/-- C2 counterexample: key `K` is registered with a succeeding creator and
a throwing initializer.  The claim says the built instance remains cached
with `initialized = false`; in the code the wrapper built by
`registerCreatorWithInit` (auto_register.h:73-83) catches the
initializer's exception and returns null, so `lazyCreateInstance` caches
*nothing* — `instances_` stays empty (and there is no `initialized` flag
at all). -/
theorem C2_counterexample :
    (lazyCreateInstance "K" stInitThrows).1 = none
    ∧ (lazyCreateInstance "K" stInitThrows).2.1.instances = []
    ∧ hasWarn (lazyCreateInstance "K" stInitThrows).2.2 = true :=
  ⟨rfl, rfl, rfl⟩

/-- C2 corrected: when the creator succeeds but the initializer throws,
the wrapper turns the whole invocation into a null return with a
diagnostic; no instance is cached, the lookup reports failure, and a later
lookup re-runs the *creator* (full retry, not an init-only retry). -/
theorem C2_init_failure (key : String) (c : Nat → CreateOutcome)
    (f : Nat → InitOutcome) (s : Reg)
    (hinst : lookupA s.instances key = none)
    (hcr : lookupA s.creators key = some (StoredCreator.wrapped c (some f)))
    (hok : c (countOf s key) = CreateOutcome.ok)
    (hthrow : f (countOf s key) = InitOutcome.throws) :
    (lazyCreateInstance key s).1 = none
    ∧ (lazyCreateInstance key s).2.1.instances = s.instances
    ∧ hasWarn (lazyCreateInstance key s).2.2 = true
    ∧ Ev.initCall key ∈ (lazyCreateInstance key s).2.2
    ∧ countOf (lazyCreateInstance key s).2.1 key = countOf s key + 1
    ∧ Ev.creatorCall key ∈ (lazyCreateInstance key (lazyCreateInstance key s).2.1).2.2 := by
  have hinv : invokeStored key (StoredCreator.wrapped c (some f)) (countOf s key)
      s.nextInst
      = (InvokeRes.ret none, [Ev.creatorCall key, Ev.initCall key,
          Ev.warn ("AutoRegister ERROR Creator with init failed for " ++ key)]) := by
    simp [invokeStored, hok, hthrow]
  have h1 : (lazyCreateInstance key s).1 = none := by
    simp [lazyCreateInstance, hinst, hcr, hinv]
  have h2 : (lazyCreateInstance key s).2.1.instances = s.instances := by
    simp [lazyCreateInstance, hinst, hcr, hinv]
  have h3 : hasWarn (lazyCreateInstance key s).2.2 = true := by
    simp [lazyCreateInstance, hinst, hcr, hinv, hasWarn]
  have h4 : Ev.initCall key ∈ (lazyCreateInstance key s).2.2 := by
    simp [lazyCreateInstance, hinst, hcr, hinv]
  have h5 : countOf (lazyCreateInstance key s).2.1 key = countOf s key + 1 := by
    simp only [lazyCreateInstance, hinst, hcr, hinv]
    simp [countOf, lookupA_insertA]
  refine ⟨h1, h2, h3, h4, h5, ?_⟩
  refine lazy_creatorCall_mem key (StoredCreator.wrapped c (some f)) _ ?_ ?_
  · rw [h2]; exact hinst
  · rw [lazy_creators_eq]; exact hcr

/-- Witness for C2's corrected statement at the concrete scenario
`stInitThrows`. -/
theorem C2_init_failure_witness :
    (lazyCreateInstance "K" stInitThrows).1 = none
    ∧ (lazyCreateInstance "K" stInitThrows).2.1.instances = stInitThrows.instances
    ∧ hasWarn (lazyCreateInstance "K" stInitThrows).2.2 = true
    ∧ Ev.initCall "K" ∈ (lazyCreateInstance "K" stInitThrows).2.2
    ∧ countOf (lazyCreateInstance "K" stInitThrows).2.1 "K" = countOf stInitThrows "K" + 1
    ∧ Ev.creatorCall "K"
        ∈ (lazyCreateInstance "K" (lazyCreateInstance "K" stInitThrows).2.1).2.2 :=
  C2_init_failure "K" (fun _ => CreateOutcome.ok) (fun _ => InitOutcome.throws)
    stInitThrows rfl rfl rfl rfl

/-- C6 counterexample: a raw creator that returns a null handle without
throwing.  Nothing is cached and the lookup returns empty, but — contrary
to the claim — *no diagnostic is emitted*: `lazyCreateInstance`'s
`if (instance)` (auto_register.h:378) simply skips the cache store and
returns the null handle silently. -/
theorem C6_counterexample :
    (lazyCreateInstance "K" stNullCreator).1 = none
    ∧ (lazyCreateInstance "K" stNullCreator).2.1.instances = []
    ∧ hasWarn (lazyCreateInstance "K" stNullCreator).2.2 = false :=
  ⟨rfl, rfl, rfl⟩

/-- C6 corrected: if the raw creator throws or returns a null handle, no
instance is cached, the lookup returns empty, and every subsequent lookup
invokes the creator again; a diagnostic is emitted in the throwing case
only — a null return is silent. -/
theorem C6_creation_failure (key : String) (c : Nat → CreateOutcome) (s : Reg)
    (hinst : lookupA s.instances key = none)
    (hcr : lookupA s.creators key = some (StoredCreator.raw c))
    (hfail : c (countOf s key) ≠ CreateOutcome.ok) :
    (lazyCreateInstance key s).1 = none
    ∧ (lazyCreateInstance key s).2.1.instances = s.instances
    ∧ hasWarn (lazyCreateInstance key s).2.2
        = (if c (countOf s key) = CreateOutcome.throws then true else false)
    ∧ countOf (lazyCreateInstance key s).2.1 key = countOf s key + 1
    ∧ Ev.creatorCall key ∈ (lazyCreateInstance key (lazyCreateInstance key s).2.1).2.2 := by
  have hmain : (lazyCreateInstance key s).1 = none
      ∧ (lazyCreateInstance key s).2.1.instances = s.instances
      ∧ hasWarn (lazyCreateInstance key s).2.2
          = (if c (countOf s key) = CreateOutcome.throws then true else false)
      ∧ countOf (lazyCreateInstance key s).2.1 key = countOf s key + 1 := by
    cases hc : c (countOf s key) with
    | ok => exact absurd hc hfail
    | retNull =>
      have hinv : invokeStored key (StoredCreator.raw c) (countOf s key) s.nextInst
          = (InvokeRes.ret none, [Ev.creatorCall key]) := by
        simp [invokeStored, hc]
      refine ⟨?_, ?_, ?_, ?_⟩ <;>
        (simp only [lazyCreateInstance, hinst, hcr, hinv];
         try simp [hasWarn, hc, countOf, lookupA_insertA])
    | throws =>
      have hinv : invokeStored key (StoredCreator.raw c) (countOf s key) s.nextInst
          = (InvokeRes.threw, [Ev.creatorCall key]) := by
        simp [invokeStored, hc]
      refine ⟨?_, ?_, ?_, ?_⟩ <;>
        (simp only [lazyCreateInstance, hinst, hcr, hinv];
         try simp [hasWarn, hc, countOf, lookupA_insertA])
  refine ⟨hmain.1, hmain.2.1, hmain.2.2.1, hmain.2.2.2, ?_⟩
  refine lazy_creatorCall_mem key (StoredCreator.raw c) _ ?_ ?_
  · rw [hmain.2.1]; exact hinst
  · rw [lazy_creators_eq]; exact hcr

/-- Witness for C6's corrected statement at the concrete scenario
`stNullCreator`. -/
theorem C6_creation_failure_witness :
    (lazyCreateInstance "K" stNullCreator).1 = none
    ∧ (lazyCreateInstance "K" stNullCreator).2.1.instances = stNullCreator.instances
    ∧ hasWarn (lazyCreateInstance "K" stNullCreator).2.2
        = (if (fun (_ : Nat) => CreateOutcome.retNull) (countOf stNullCreator "K")
              = CreateOutcome.throws
           then true else false)
    ∧ countOf (lazyCreateInstance "K" stNullCreator).2.1 "K"
        = countOf stNullCreator "K" + 1
    ∧ Ev.creatorCall "K"
        ∈ (lazyCreateInstance "K" (lazyCreateInstance "K" stNullCreator).2.1).2.2 :=
  C6_creation_failure "K" (fun _ => CreateOutcome.retNull) stNullCreator
    rfl rfl (by decide)


/-- C4: where the caching invariant is reachable it holds — after the
instance of `A` is built once through the batch/`forceInit` path
(`stBuiltA`), every subsequent `getInstance` is a clean single-lock cache
hit returning the same handle with the client factory still invoked
exactly once — but the claim's own scenario (a plain `get` creating the
instance) never completes: `getInstance` on a cache miss calls
`lazyCreateInstance` while its `lock_guard` still holds the non-recursive
`mutex_` (auto_register.h:253, 258, 358), so the first of the three `get`
calls re-acquires the held mutex (undefined behaviour; in practice
self-deadlock) instead of invoking the factory once and returning. -/
theorem C4_at_most_once_creation :
    acquireWhileHeld (getInstance "A" stLazyA).2.2 = true
    ∧ hasInstance "A" stLazyA = false
    ∧ countOf stBuiltA "A" = 1
    ∧ (getInstance "A" stBuiltA).1 = some 0
    ∧ acquireWhileHeld (getInstance "A" stBuiltA).2.2 = false
    ∧ (getInstance "A" (getInstance "A" stBuiltA).2.1).1 = some 0
    ∧ countOf (getInstance "A" (getInstance "A" stBuiltA).2.1).2.1 "A" = 1 :=
  ⟨rfl, rfl, rfl, rfl, rfl, rfl, rfl⟩

/-- C9: the registry violates its own locking discipline.  With `A`
registered through `registerCreatorWithInit` and not yet built,
`lazyCreateInstance` invokes the stored closure — the client creator plus
its embedded initializer — at auto_register.h:372, *inside* the second
`lock_guard`; and `getInstance` on a cache miss re-acquires the already
held non-recursive `mutex_`, so a creator or initializer that re-entrantly
calls `getInstance` (as the spec promises it may) self-deadlocks. -/
theorem C9_callback_under_lock :
    callbackUnderLock (lazyCreateInstance "A" stWithInitA).2.2 = true
    ∧ acquireWhileHeld (getInstance "A" stWithInitA).2.2 = true :=
  ⟨rfl, rfl⟩

/-- C7 counterexample: `executePriorInits(-1)` clamps its argument to `0`
(auto_register.h:233) and therefore still runs the priority-0 entry `A`,
although `A`'s priority `0` is not `≤ -1` — the claim's "only entries with
priority ≤ m are selected" fails for negative `m`. -/
theorem C7_counterexample :
    stPrioZero.initQueue = [(0, "A")]
    ∧ collectInitsUpToPriority (stdClamp (-1) 0 10) stPrioZero.initQueue = ["A"]
    ∧ ((executePriorInits (-1) stPrioZero).2).contains (Ev.creatorCall "A") = true :=
  ⟨rfl, rfl, rfl⟩

/-- C7 corrected: the snapshot taken by `executePriorInits(m)` — the
queues walked by `collectInitsUpToPriority` after clamping — contains
exactly the queued entries with priority `≤ clamp(m,0,10)` (for `m ≥ 0`
this is the claim's bound `≤ m` capped at 10), lists them in ascending
priority order, preserves registration order within each priority, and is
exactly the task list the batch then executes. -/
theorem C7_priority_order (m : Int) (q : List (Int × String)) :
    (∀ e : Int × String, e ∈ collectPairs (stdClamp m 0 10) q
        ↔ e ∈ q ∧ 0 ≤ e.1 ∧ e.1 ≤ stdClamp m 0 10)
    ∧ (collectPairs (stdClamp m 0 10) q).Pairwise (fun a b => a.1 ≤ b.1)
    ∧ (∀ p : Int, 0 ≤ p → p ≤ stdClamp m 0 10 →
        (collectPairs (stdClamp m 0 10) q).filter (fun e => e.1 = p)
          = q.filter (fun e => e.1 = p))
    ∧ collectInitsUpToPriority (stdClamp m 0 10) q
        = (collectPairs (stdClamp m 0 10) q).map (fun e => e.2) :=
  ⟨fun e => mem_collectPairs _ q e, collectPairs_sorted _ q,
    fun p h0 hle => filter_collectPairs _ p q h0 hle, rfl⟩


/-- C5: failure isolation in a batch.  If one selected entry `j` has a raw
creator that always throws while every other selected entry's callbacks
succeed, `executePriorInits` still runs to completion (it is a total
function of the model; the C++ catches every exception per task,
auto_register.h:503-511): every other selected entry ends up created and
cached, `j` stays unbuilt, and the failure is logged. -/
theorem C5_failure_isolation (m : Int) (s : Reg) (j : String)
    (c : Nat → CreateOutcome)
    (hall : ∀ k ∈ collectInitsUpToPriority (stdClamp m 0 10) s.initQueue, k ≠ j →
        ∃ sc, lookupA s.creators k = some sc ∧ alwaysSucceeds sc)
    (hj : j ∈ collectInitsUpToPriority (stdClamp m 0 10) s.initQueue)
    (hjcr : lookupA s.creators j = some (StoredCreator.raw c))
    (hjthrows : ∀ n, c n = CreateOutcome.throws)
    (hjnone : lookupA s.instances j = none) :
    (∀ k ∈ collectInitsUpToPriority (stdClamp m 0 10) s.initQueue, k ≠ j →
        hasInstance k (executePriorInits m s).1 = true)
    ∧ hasInstance j (executePriorInits m s).1 = false
    ∧ hasWarn (executePriorInits m s).2 = true := by
  have hst : (executePriorInits m s).1
      = (runTasks (collectInitsUpToPriority (stdClamp m 0 10) s.initQueue) s).1 := rfl
  have htr : (executePriorInits m s).2
      = [Ev.lockAcquire, Ev.lockRelease]
        ++ (runTasks (collectInitsUpToPriority (stdClamp m 0 10) s.initQueue) s).2
        ++ [Ev.lockAcquire, Ev.lockRelease] := rfl
  refine ⟨?_, ?_, ?_⟩
  · intro k hk hne
    obtain ⟨sc, hsc, hok⟩ := hall k hk hne
    rw [hst]
    unfold hasInstance
    exact runTasks_success _ s k hk sc hsc hok
  · rw [hst]
    unfold hasInstance
    rw [runTasks_fail_none _ s j c hjcr hjthrows hjnone]
    rfl
  · rw [htr, hasWarn_append, hasWarn_append]
    rw [runTasks_fail_warn _ s j c hj hjcr hjthrows hjnone]
    simp [hasWarn]

/-- Witness for C5 at the three-entry scenario `stIsolation` (good `G`,
throwing `B`, good `H`). -/
theorem C5_failure_isolation_witness :
    hasInstance "G" (executePriorInits 10 stIsolation).1 = true
    ∧ hasInstance "H" (executePriorInits 10 stIsolation).1 = true
    ∧ hasInstance "B" (executePriorInits 10 stIsolation).1 = false
    ∧ hasWarn (executePriorInits 10 stIsolation).2 = true := by
  have hkeys : collectInitsUpToPriority (stdClamp 10 0 10) stIsolation.initQueue
      = ["G", "B", "H"] := rfl
  have hall : ∀ k ∈ collectInitsUpToPriority (stdClamp 10 0 10) stIsolation.initQueue,
      k ≠ "B" →
      ∃ sc, lookupA stIsolation.creators k = some sc ∧ alwaysSucceeds sc := by
    intro k hk hne
    rw [hkeys] at hk
    simp only [List.mem_cons, List.not_mem_nil, or_false] at hk
    rcases hk with rfl | rfl | rfl
    · exact ⟨StoredCreator.raw (fun _ => CreateOutcome.ok), rfl, fun n => rfl⟩
    · exact absurd rfl hne
    · exact ⟨StoredCreator.raw (fun _ => CreateOutcome.ok), rfl, fun n => rfl⟩
  have hj : "B" ∈ collectInitsUpToPriority (stdClamp 10 0 10) stIsolation.initQueue := by
    rw [hkeys]
    simp
  have T := C5_failure_isolation 10 stIsolation "B" (fun _ => CreateOutcome.throws)
    hall hj rfl (fun n => rfl) rfl
  refine ⟨T.1 "G" ?_ (by decide), T.1 "H" ?_ (by decide), T.2.1, T.2.2⟩
  · rw [hkeys]; simp
  · rw [hkeys]; simp

/-- Keys of a queue block below priority `p2` never include a key all of
whose registrations carry priority `p2`. -/
theorem collect_not_mem_low (p2 : Int) (q : List (Int × String)) (k2 : String)
    (h2 : ∀ e ∈ q, e.2 = k2 → e.1 = p2) (hp2 : 0 ≤ p2) :
    k2 ∉ (List.range p2.toNat).flatMap
      (fun p => (q.filter (fun e => e.1 = (p : Int))).map (fun e => e.2)) := by
  intro hmem
  rw [List.mem_flatMap] at hmem
  obtain ⟨p', hp', hkmem⟩ := hmem
  rw [List.mem_range] at hp'
  obtain ⟨pr, hqmem, hpr⟩ := mem_collect_block q p' k2 hkmem
  have hpe : pr = p2 := h2 _ hqmem rfl
  omega

/-- Keys of the queue blocks at priority `≥ p2` never include a key all
of whose registrations carry a priority `< p2`. -/
theorem collect_not_mem_high (p1 p2 : Int) (n : Nat) (q : List (Int × String))
    (k1 : String) (h1 : ∀ e ∈ q, e.2 = k1 → e.1 = p1)
    (hlt : p1 < p2) (hp2 : 0 ≤ p2) :
    k1 ∉ ((List.range n).map (fun t => p2.toNat + t)).flatMap
      (fun p => (q.filter (fun e => e.1 = (p : Int))).map (fun e => e.2)) := by
  intro hmem
  rw [List.mem_flatMap] at hmem
  obtain ⟨p', hp', hkmem⟩ := hmem
  rw [List.mem_map] at hp'
  obtain ⟨t, ht, rfl⟩ := hp'
  obtain ⟨pr, hqmem, hpr⟩ := mem_collect_block q (p2.toNat + t) k1 hkmem
  have hpe : pr = p1 := h1 _ hqmem rfl
  omega

/-- C1 corrected: the batch materializes entries one at a time in
ascending priority order, each entry's creator and initializer running
back-to-back inside that entry's `lazyCreateInstance` task; it is *not*
two-phase across entries.  The per-pair consequence in the claim's first
half survives: if every registration of `k1` carries priority `p1`, every
registration of `k2` carries `p2`, and `p1 < p2 ≤ clamp(m,0,10)`, then in
`executePriorInits(m)` every invocation of `k1`'s creator precedes every
invocation of `k2`'s initializer. -/
theorem C1_creator_before_init (m p1 p2 : Int) (k1 k2 : String) (s : Reg)
    (h1 : ∀ e ∈ s.initQueue, e.2 = k1 → e.1 = p1)
    (h2 : ∀ e ∈ s.initQueue, e.2 = k2 → e.1 = p2)
    (hp0 : 0 ≤ p1) (hlt : p1 < p2) (hle : p2 ≤ stdClamp m 0 10)
    (i j : Nat)
    (hi : ((executePriorInits m s).2)[i]? = some (Ev.creatorCall k1))
    (hj : ((executePriorInits m s).2)[j]? = some (Ev.initCall k2)) :
    i < j := by
  have hmc0 : 0 ≤ stdClamp m 0 10 := stdClamp_nonneg m
  have hp2 : 0 ≤ p2 := by omega
  have hsplitn : (stdClamp m 0 10 + 1).toNat
      = p2.toNat + ((stdClamp m 0 10 + 1).toNat - p2.toNat) := by omega
  have hkeys : collectInitsUpToPriority (stdClamp m 0 10) s.initQueue
      = (List.range p2.toNat).flatMap
          (fun p => ((s.initQueue.filter (fun e => e.1 = (p : Int))).map
            (fun e => e.2)))
        ++ ((List.range ((stdClamp m 0 10 + 1).toNat - p2.toNat)).map
              (fun t => p2.toNat + t)).flatMap
            (fun p => ((s.initQueue.filter (fun e => e.1 = (p : Int))).map
              (fun e => e.2))) := by
    rw [collectInits_eq_flatMap, hsplitn, List.range_add, List.flatMap_append]
    simp [Nat.add_sub_cancel_left]
  have htr : (executePriorInits m s).2
      = ([Ev.lockAcquire, Ev.lockRelease]
          ++ (runTasks ((List.range p2.toNat).flatMap
              (fun p => ((s.initQueue.filter (fun e => e.1 = (p : Int))).map
                (fun e => e.2)))) s).2)
        ++ ((runTasks (((List.range ((stdClamp m 0 10 + 1).toNat - p2.toNat)).map
              (fun t => p2.toNat + t)).flatMap
              (fun p => ((s.initQueue.filter (fun e => e.1 = (p : Int))).map
                (fun e => e.2))))
            (runTasks ((List.range p2.toNat).flatMap
              (fun p => ((s.initQueue.filter (fun e => e.1 = (p : Int))).map
                (fun e => e.2)))) s).1).2
          ++ [Ev.lockAcquire, Ev.lockRelease]) := by
    have h0 : (executePriorInits m s).2
        = [Ev.lockAcquire, Ev.lockRelease]
          ++ (runTasks (collectInitsUpToPriority (stdClamp m 0 10) s.initQueue) s).2
          ++ [Ev.lockAcquire, Ev.lockRelease] := rfl
    rw [h0, hkeys, runTasks_append]
    simp [List.append_assoc]
  rw [htr] at hi hj
  refine mem_split_lt _ _ _ _ ?_ ?_ i j hi hj
  · intro hmem
    rw [List.mem_append] at hmem
    rcases hmem with hmem | hmem
    · exact collect_not_mem_high p1 p2 _ s.initQueue k1 h1 hlt hp2
        (runTasks_event_creator _ _ k1 hmem)
    · simp at hmem
  · intro hmem
    rw [List.mem_append] at hmem
    rcases hmem with hmem | hmem
    · simp at hmem
    · exact collect_not_mem_low p2 s.initQueue k2 h2 hp2
        (runTasks_event_init _ _ k2 hmem)

/-- Witness for C1's corrected statement: in the `stTwoPhase` batch
(priorities 1 and 2), `A`'s creator at trace index 5 precedes `B`'s
initializer at trace index 14. -/
theorem C1_creator_before_init_witness :
    ((executePriorInits 10 stTwoPhase).2)[5]? = some (Ev.creatorCall "A")
    ∧ ((executePriorInits 10 stTwoPhase).2)[14]? = some (Ev.initCall "B")
    ∧ (5 : Nat) < 14 :=
  ⟨rfl, rfl,
    C1_creator_before_init 10 1 2 "A" "B" stTwoPhase (by decide) (by decide)
      (by decide) (by decide) (by decide) 5 14 rfl rfl⟩

/-- C1 counterexample: the pass is not two-phase.  In the `stTwoPhase`
batch, `A`'s *initializer* (trace index 6) runs before `B`'s *creator*
(trace index 13): each queued task is `lazyCreateInstance`, whose stored
closure runs the entry's creator and initializer together
(auto_register.h:73-77), so creators and initializers interleave across
entries instead of all creators running first. -/
theorem C1_counterexample :
    ((executePriorInits 10 stTwoPhase).2)[6]? = some (Ev.initCall "A")
    ∧ ((executePriorInits 10 stTwoPhase).2)[13]? = some (Ev.creatorCall "B")
    ∧ (6 : Nat) < 13 :=
  ⟨rfl, rfl, by decide⟩

end AutoReg
